import Mathlib

/-!
Verification of the audiencias reconciliation and sync engine.

The definitions below are a shallow embedding of the hearing-record pipeline
in `src/scrapper.py` and `src/scrapper_refactored.py`: the record normalizer
(`json_to_dataframe`), the merge/dedup engine (`combine_and_sort_dataframes`),
the change detector (`find_changed_hearings`) and the calendar reconciler
(`populate_calendar`, `handle_changed_events`).  DataFrames are embedded as
lists of records; null cells as `Option`; dates handled as the code handles
them, via parse/format round trips on display strings.
-/

/-- Splits a list of characters on a separator character, mirroring how a
date string is broken into fields before each component is parsed. -/
def splitChar (sep : Char) : List Char → List (List Char)
  | [] => [[]]
  | c :: rest =>
    if c = sep then [] :: splitChar sep rest
    else
      match splitChar sep rest with
      | h :: t => (c :: h) :: t
      | [] => [[c]]

/-- Accumulating decimal-digit reader over characters. -/
def digitsToNatAux (acc : Nat) : List Char → Option Nat
  | [] => some acc
  | c :: rest =>
    if '0' ≤ c ∧ c ≤ '9' then digitsToNatAux (acc * 10 + (c.toNat - 48)) rest
    else none

/-- Reads a nonempty all-digit character sequence as a natural number,
mirroring a strptime numeric field match (at least one digit required). -/
def digitsToNat : List Char → Option Nat
  | [] => none
  | l => digitsToNatAux 0 l

/-- Leap-year test of the Gregorian calendar, as `datetime` validates dates. -/
def isLeap (y : Nat) : Bool := (y % 4 = 0 ∧ y % 100 ≠ 0) ∨ y % 400 = 0

/-- Number of days in a month, as `datetime` validates day-of-month. -/
def daysInMonth (m y : Nat) : Nat :=
  if m = 2 then (if isLeap y then 29 else 28)
  else if m = 4 ∨ m = 6 ∨ m = 9 ∨ m = 11 then 30
  else 31

/-- Calendar validity check applied by `datetime.strptime` / `pd.to_datetime`
when a date is parsed (year bounded by the four-digit display format). -/
def dateOk (d m y : Nat) : Bool :=
  decide (1 ≤ m ∧ m ≤ 12 ∧ 1 ≤ d ∧ d ≤ daysInMonth m y ∧ 1 ≤ y ∧ y ≤ 9999)

/-- A parsed calendar date: day, month, year. -/
abbrev DateT := Nat × Nat × Nat

/-- Parses a `DD/MM/YYYY` display string as `pd.to_datetime(.., format="%d/%m/%Y")`
does in `combine_and_sort_dataframes`; an unparseable string yields `none`
(the refactored code's `errors="coerce"` NaT). -/
def parseDate (s : String) : Option DateT :=
  match splitChar '/' s.toList with
  | [ds, ms, ys] =>
    match digitsToNat ds, digitsToNat ms, digitsToNat ys with
    | some d, some m, some y => if dateOk d m y then some (d, m, y) else none
    | _, _, _ => none
  | _ => none

/-- Parses the date part of an ISO `YYYY-MM-DD[Thh:mm:ss]` string as
`pd.to_datetime` does in `json_to_dataframe`. -/
def parseIsoDate (s : String) : Option DateT :=
  match splitChar 'T' s.toList with
  | datePart :: _ =>
    match splitChar '-' datePart with
    | [ys, ms, ds] =>
      match digitsToNat ys, digitsToNat ms, digitsToNat ds with
      | some y, some m, some d => if dateOk d m y then some (d, m, y) else none
      | _, _, _ => none
    | _ => none
  | [] => none

/-- Two-digit zero-padded decimal rendering (strftime `%d`, `%m`). -/
def pad2 (n : Nat) : List Char :=
  [Char.ofNat (48 + n / 10 % 10), Char.ofNat (48 + n % 10)]

/-- Four-digit zero-padded decimal rendering (strftime `%Y` for years up to 9999). -/
def pad4 (n : Nat) : List Char :=
  [Char.ofNat (48 + n / 1000 % 10), Char.ofNat (48 + n / 100 % 10),
   Char.ofNat (48 + n / 10 % 10), Char.ofNat (48 + n % 10)]

/-- Renders a parsed date back to the `DD/MM/YYYY` display string
(strftime `"%d/%m/%Y"`). -/
def formatDate : DateT → String
  | (d, m, y) => String.mk (pad2 d ++ '/' :: pad2 m ++ '/' :: pad4 y)

/-- Rendering of an optional parsed date cell after the merge: a parsed date
is rendered with strftime; a NaT cell (unparseable input under the refactored
code's coercion) renders as a null cell, modelled by the empty string.  No
claim exercises the NaT branch. -/
def formatOptDate : Option DateT → String
  | some dv => formatDate dv
  | none => ""

/-- A display date string is well formed when it parses and rendering the
parse reproduces it exactly, i.e. it is genuine zero-padded `DD/MM/YYYY`. -/
def wellFormedDate (s : String) : Bool :=
  match parseDate s with
  | some dv => decide (formatDate dv = s)
  | none => false

/-- Canonical hearing record: one row of the canonical DataFrame, columns in
spreadsheet order (Data da Audiência, Hora da Audiência, Número do Processo,
Reclamante, Reclamado, Órgão Julgador, Tipo, Status). -/
structure Record where
  hearing_date : String
  hearing_time : String
  case_number : String
  claimant : String
  respondent : String
  venue : String
  hearing_type : String
  status : String
deriving DecidableEq, Repr

/-- Identity tuple of a record: (case_number, venue, hearing_date, hearing_time),
the `drop_duplicates` subset of `combine_and_sort_dataframes`. -/
def idTuple (r : Record) : String × String × String × String :=
  (r.case_number, r.venue, r.hearing_date, r.hearing_time)

/-- Chronological sort key of an optional parsed date; a NaT sorts after every
real date (pandas `na_position="last"`), and real dates compare in calendar
order. -/
def dateKey : Option DateT → Nat
  | none => 100000000
  | some (d, m, y) => y * 10000 + m * 100 + d

/-- Chronological key of a record's display date, the order
`combine_and_sort_dataframes` sorts by. -/
def dateOrdKey (r : Record) : Nat := dateKey (parseDate r.hearing_date)

/-- A record set is canonical when every row carries a well-formed
`DD/MM/YYYY` display date. -/
def canonicalSet (l : List Record) : Bool :=
  l.all (fun r => wellFormedDate r.hearing_date)

/-- Change detector `HearingDataProcessor.find_changed_hearings`: for each row
of the new set, selects the old-snapshot rows sharing case number and venue
whose date, type or hour differ, and concatenates the selections.  Empty
input on either side yields an empty result. -/
def find_changed_hearings (new_df old_df : List Record) : List Record :=
  if new_df.isEmpty || old_df.isEmpty then []
  else
    new_df.flatMap (fun row =>
      ((old_df.filter (fun o =>
          decide (o.case_number = row.case_number ∧ o.venue = row.venue))).filter
        (fun o =>
          decide (o.hearing_date ≠ row.hearing_date ∨
                  o.hearing_type ≠ row.hearing_type ∨
                  o.hearing_time ≠ row.hearing_time))))

/-- Pairs a record with its parsed date, modelling the `pd.to_datetime`
conversion of the date column before concatenation and dedup. -/
def toPair (r : Record) : Record × Option DateT := (r, parseDate r.hearing_date)

/-- Dedup key used by `drop_duplicates`: case number, venue, parsed date and
hour (the date column holds parsed datetimes at dedup time). -/
def keyOf (x : Record × Option DateT) : String × String × Option DateT × String :=
  (x.1.case_number, x.1.venue, x.2, x.1.hearing_time)

/-- Removes rows whose dedup key was already seen, keeping the first
occurrence in concatenation order (`drop_duplicates(keep="first")`). -/
def dropDupAux (seen : List (String × String × Option DateT × String)) :
    List (Record × Option DateT) → List (Record × Option DateT)
  | [] => []
  | x :: xs =>
    if keyOf x ∈ seen then dropDupAux seen xs
    else x :: dropDupAux (keyOf x :: seen) xs

/-- First-occurrence dedup over the whole list. -/
def dropDupFirst (l : List (Record × Option DateT)) : List (Record × Option DateT) :=
  dropDupAux [] l

/-- Date order on paired rows, the `sort_values(by=date)` comparison. -/
def dateLe (a b : Record × Option DateT) : Prop := dateKey a.2 ≤ dateKey b.2

instance : DecidableRel dateLe := fun a b => Nat.decLe (dateKey a.2) (dateKey b.2)

instance : IsTotal (Record × Option DateT) dateLe :=
  ⟨fun a b => Nat.le_total (dateKey a.2) (dateKey b.2)⟩

instance : IsTrans (Record × Option DateT) dateLe :=
  ⟨fun _ _ _ hab hbc => Nat.le_trans hab hbc⟩

/-- Dedup then sort by parsed date: the core of the nonempty merge path. -/
def mergeCore (l : List (Record × Option DateT)) : List (Record × Option DateT) :=
  List.insertionSort dateLe (dropDupFirst l)

/-- Writes the parsed date column back to display strings
(`dt.strftime("%d/%m/%Y")` after sorting). -/
def finalize (x : Record × Option DateT) : Record :=
  { x.1 with hearing_date := formatOptDate x.2 }

/-- Merge/dedup engine `HearingDataProcessor.combine_and_sort_dataframes`:
if either input is empty the other is returned unchanged; otherwise both date
columns are parsed, the frames concatenated, duplicate identity tuples dropped
keeping the first occurrence, rows sorted ascending by parsed date, and the
date column rendered back to display strings. -/
def combine_and_sort_dataframes (df1 df2 : List Record) : List Record :=
  if df1.isEmpty then df2
  else if df2.isEmpty then df1
  else (mergeCore (df1.map toPair ++ df2.map toPair)).map finalize

/-- Raw court payload row after `pd.json_normalize` flattening: each source
field is a cell that may be missing (`none`), whether because the field is
absent in that row or because the whole column is absent and was created
null. -/
structure RawRow where
  dataInicio : Option String
  horaInicial : Option String
  numero : Option String
  poloAtivoNome : Option String
  poloPassivoNome : Option String
  orgaoJulgadorDescricao : Option String
  tipoDescricao : Option String
  statusDescricao : Option String
deriving DecidableEq, Repr

/-- Raw court payload: `resultado = none` models a falsy payload or one with
no `resultado` key. -/
structure Payload where
  resultado : Option (List RawRow)
deriving DecidableEq, Repr

/-- Canonical record as produced by the normalizer, before any null check:
cells may be null. -/
structure NormRecord where
  hearing_date : Option String
  hearing_time : Option String
  case_number : Option String
  claimant : Option String
  respondent : Option String
  venue : Option String
  hearing_type : Option String
  status : Option String
deriving DecidableEq, Repr

/-- Field mapping of one raw row to the canonical schema, with the date cell
parsed from ISO and rendered as `DD/MM/YYYY`; an unparseable or missing date
maps to null (the refactored code's `errors="coerce"`). -/
def mapRow (r : RawRow) : NormRecord :=
  { hearing_date := r.dataInicio.bind (fun s => (parseIsoDate s).map formatDate)
  , hearing_time := r.horaInicial
  , case_number := r.numero
  , claimant := r.poloAtivoNome
  , respondent := r.poloPassivoNome
  , venue := r.orgaoJulgadorDescricao
  , hearing_type := r.tipoDescricao
  , status := r.statusDescricao }

/-- Whether some present date cell of the payload fails to parse; in the
legacy normalizer this makes the column-wide `pd.to_datetime` call raise. -/
def hasMalformedDate (rows : List RawRow) : Bool :=
  rows.any (fun r =>
    match r.dataInicio with
    | some s => (parseIsoDate s).isNone
    | none => false)

/-- Legacy normalizer `HearingDataProcessor.json_to_dataframe` of
`src/scrapper.py`: no `resultado` yields empty; a malformed date cell makes
the unguarded `pd.to_datetime` raise inside the try block, so the caught
exception turns the WHOLE payload into an empty output; otherwise rows are
mapped with no null filtering. -/
def json_to_dataframe (p : Payload) : List NormRecord :=
  match p.resultado with
  | none => []
  | some rows => if hasMalformedDate rows then [] else rows.map mapRow

/-- Refactored normalizer `HearingDataProcessor.json_to_dataframe` of
`src/scrapper_refactored.py`: rows are mapped with date coercion, then
`dropna(subset=[hearing_date, case_number])` removes rows whose date or case
number is null. -/
def json_to_dataframe_refactored (p : Payload) : List NormRecord :=
  match p.resultado with
  | none => []
  | some rows =>
    (rows.map mapRow).filter (fun n => n.hearing_date.isSome && n.case_number.isSome)

/-- Formatted calendar event title of a record
(`f"{tipo} - {reclamante} x {reclamado} {data} às {hora} - {orgao}"`),
built from row positions 6, 3, 4, 0, 1, 5; case number and status are not
part of the title. -/
def eventSummary (r : Record) : String :=
  r.hearing_type ++ " - " ++ r.claimant ++ " x " ++ r.respondent ++ " " ++
    r.hearing_date ++ " às " ++ r.hearing_time ++ " - " ++ r.venue

/-- Calendar population `GoogleCalendarManager.populate_calendar`, returned as
the list of records passed to `create_event`, in order: an empty input issues
no creation; otherwise the titles currently on the calendar are fetched once
up front and every record whose computed title is not among them gets a
create call.  The fetched title list is never updated inside the loop. -/
def populate_calendar (df : List Record) (summaries : List String) : List Record :=
  if df.isEmpty then []
  else df.filter (fun r => !(decide (eventSummary r ∈ summaries)))

/-- A calendar event as listed by the calendar adapter: stable id plus title. -/
structure CalEvent where
  id : String
  summary : String
deriving DecidableEq, Repr

/-- Substring containment over characters, used to model the calendar's
free-text title query. -/
def containsSub (needle : List Char) : List Char → Bool
  | [] => needle.isEmpty
  | c :: rest => needle.isPrefixOf (c :: rest) || containsSub needle rest

/-- Title search `GoogleCalendarManager.find_events_by_summary`: events whose
summary contains the queried title as a substring (the API's `q` free-text
match, not an exact comparison). -/
def find_events_by_summary (q : String) (events : List CalEvent) : List CalEvent :=
  events.filter (fun e => containsSub q.toList e.summary.toList)

/-- Externally visible calls issued while reconciling changed events: an event
deletion by id, the anomaly notification sent when a stale title matches no
event, and the change notification sent after each deletion. -/
inductive SyncCall where
  | deleteCall : String → SyncCall
  | notifyMissing : String → SyncCall
  | notifyChanged : String → SyncCall
deriving DecidableEq, Repr

/-- Per-record body of `handle_changed_events`: compute the stale record's
title, search the calendar; on no match send exactly one anomaly notification
and delete nothing; otherwise delete every match, notifying after each
deletion. -/
def handleRow (events : List CalEvent) (r : Record) : List SyncCall :=
  let s := eventSummary r
  let found := find_events_by_summary s events
  if found.isEmpty then [SyncCall.notifyMissing s]
  else found.flatMap (fun e => [SyncCall.deleteCall e.id, SyncCall.notifyChanged s])

/-- Stale-event reconciliation `GoogleCalendarManager.handle_changed_events`,
returned as the ordered list of delete/notify calls: empty input does
nothing; otherwise each stale row is processed independently in order. -/
def handle_changed_events (diff : List Record) (events : List CalEvent) : List SyncCall :=
  if diff.isEmpty then [] else diff.flatMap (handleRow events)

/-- Sample canonical record with a duplicate identity tuple partner: status
differs from `recX2` but the identity tuple agrees. -/
def recX1 : Record :=
  ⟨"01/01/2026", "09:00", "123", "A", "B", "V1", "Inicial", "S1"⟩

/-- Same identity tuple as `recX1`, different status. -/
def recX2 : Record :=
  ⟨"01/01/2026", "09:00", "123", "A", "B", "V1", "Inicial", "S2"⟩

/-- Sample canonical record dated late in 2026. -/
def recLate : Record :=
  ⟨"31/12/2026", "09:00", "111", "Ana", "Beta", "V1", "Inicial", "Designada"⟩

/-- Sample canonical record dated early in 2025, distinct from `recLate` in
every field. -/
def recEarly : Record :=
  ⟨"01/01/2025", "10:00", "222", "Caio", "Delta", "V2", "Una", "Designada"⟩

/-- Sample record whose computed title equals that of `recTwinB` although the
records differ (the case number is not part of the title). -/
def recTwinA : Record :=
  ⟨"10/03/2026", "14:00:00", "0001", "Ana", "Beta", "V1", "Inicial", "Designada"⟩

/-- Same as `recTwinA` except for the case number. -/
def recTwinB : Record :=
  ⟨"10/03/2026", "14:00:00", "0002", "Ana", "Beta", "V1", "Inicial", "Designada"⟩

/-- Raw payload row with every field present and a well-formed ISO date. -/
def rowGood : RawRow :=
  ⟨some "2026-03-10T14:00:00", some "14:00:00", some "0001-22.2026", some "Joao",
   some "Empresa X", some "Vara 1", some "Inicial", some "Designada"⟩

/-- Raw payload row with a well-formed date but no case number. -/
def rowNoCase : RawRow :=
  ⟨some "2026-03-10T14:00:00", some "14:00:00", none, some "Joao",
   some "Empresa X", some "Vara 1", some "Inicial", some "Designada"⟩

/-- Raw payload row whose date string is not parseable as an ISO date. -/
def rowBadDate : RawRow :=
  ⟨some "not-a-date", some "14:00:00", some "0002-33.2026", some "Maria",
   some "Empresa Y", some "Vara 2", some "Una", some "Designada"⟩

/-- Payload holding only the fully well-formed row. -/
def pGood : Payload := ⟨some [rowGood]⟩

/-- Payload holding only the row without a case number. -/
def pNoCase : Payload := ⟨some [rowNoCase]⟩

/-- Payload holding one well-formed row and one row with a malformed date. -/
def pMix : Payload := ⟨some [rowGood, rowBadDate]⟩

/-- A calendar event whose title is the computed title of `recLate`. -/
def evLate : CalEvent := ⟨"ev-1", eventSummary recLate⟩


theorem mem_of_mem_dropDupAux {x : Record × Option DateT} :
    ∀ (l : List (Record × Option DateT)) (seen : List (String × String × Option DateT × String)),
      x ∈ dropDupAux seen l → x ∈ l := by
  intro l
  induction l with
  | nil => intro seen h; simp [dropDupAux] at h
  | cons a t ih =>
    intro seen h
    by_cases hk : keyOf a ∈ seen
    · simp only [dropDupAux, if_pos hk] at h
      exact List.mem_cons_of_mem a (ih seen h)
    · simp only [dropDupAux, if_neg hk, List.mem_cons] at h
      rcases h with h | h
      · exact h ▸ List.mem_cons_self a t
      · exact List.mem_cons_of_mem a (ih _ h)

theorem exists_key_dropDupAux {x : Record × Option DateT} :
    ∀ (l : List (Record × Option DateT)) (seen : List (String × String × Option DateT × String)),
      x ∈ l → keyOf x ∉ seen →
      ∃ y ∈ dropDupAux seen l, keyOf y = keyOf x := by
  intro l
  induction l with
  | nil => intro seen hx _; simp at hx
  | cons a t ih =>
    intro seen hx hs
    rcases List.mem_cons.mp hx with rfl | hxt
    · by_cases hk : keyOf x ∈ seen
      · exact absurd hk hs
      · exact ⟨x, by simp [dropDupAux, if_neg hk], rfl⟩
    · by_cases hk : keyOf a ∈ seen
      · obtain ⟨y, hy, hky⟩ := ih seen hxt hs
        exact ⟨y, by simpa [dropDupAux, if_pos hk] using hy, hky⟩
      · by_cases hkey : keyOf x = keyOf a
        · exact ⟨a, by simp [dropDupAux, if_neg hk], hkey.symm⟩
        · obtain ⟨y, hy, hky⟩ := ih (keyOf a :: seen) hxt (by
            intro hmem
            rcases List.mem_cons.mp hmem with h | h
            · exact hkey h
            · exact hs h)
          exact ⟨y, by simp only [dropDupAux, if_neg hk, List.mem_cons]; exact Or.inr hy, hky⟩

theorem pairwise_fresh_dropDupAux :
    ∀ (l : List (Record × Option DateT)) (seen : List (String × String × Option DateT × String)),
      (dropDupAux seen l).Pairwise (fun a b => keyOf a ≠ keyOf b) ∧
      ∀ y ∈ dropDupAux seen l, keyOf y ∉ seen := by
  intro l
  induction l with
  | nil => intro seen; simp [dropDupAux]
  | cons a t ih =>
    intro seen
    by_cases hk : keyOf a ∈ seen
    · simpa [dropDupAux, if_pos hk] using ih seen
    · obtain ⟨hp, hf⟩ := ih (keyOf a :: seen)
      constructor
      · simp only [dropDupAux, if_neg hk]
        exact List.pairwise_cons.mpr
          ⟨fun y hy heq => hf y hy (heq ▸ List.mem_cons_self _ _), hp⟩
      · intro y hy
        simp only [dropDupAux, if_neg hk, List.mem_cons] at hy
        rcases hy with rfl | hy
        · exact hk
        · exact fun hmem => hf y hy (List.mem_cons_of_mem _ hmem)

theorem mergeCore_perm (l : List (Record × Option DateT)) :
    List.Perm (mergeCore l) (dropDupFirst l) :=
  List.perm_insertionSort dateLe (dropDupFirst l)

theorem mem_of_mem_mergeCore {l : List (Record × Option DateT)}
    {x : Record × Option DateT} (h : x ∈ mergeCore l) : x ∈ l :=
  mem_of_mem_dropDupAux l [] ((mergeCore_perm l).mem_iff.mp h)

theorem exists_key_mergeCore {l : List (Record × Option DateT)}
    {x : Record × Option DateT} (hx : x ∈ l) :
    ∃ y ∈ mergeCore l, keyOf y = keyOf x := by
  obtain ⟨y, hy, hk⟩ := exists_key_dropDupAux l [] hx (by simp)
  exact ⟨y, (mergeCore_perm l).mem_iff.mpr hy, hk⟩

theorem pairwise_key_mergeCore (l : List (Record × Option DateT)) :
    (mergeCore l).Pairwise (fun a b => keyOf a ≠ keyOf b) :=
  ((mergeCore_perm l).pairwise_iff (fun h => Ne.symm h)).mpr (pairwise_fresh_dropDupAux l []).1

theorem sorted_mergeCore (l : List (Record × Option DateT)) :
    (mergeCore l).Pairwise dateLe :=
  List.sorted_insertionSort dateLe (dropDupFirst l)

theorem wellFormedDate_spec {s : String} (h : wellFormedDate s = true) :
    ∃ dv, parseDate s = some dv ∧ formatDate dv = s := by
  unfold wellFormedDate at h
  cases hp : parseDate s with
  | none => rw [hp] at h; simp at h
  | some dv => rw [hp] at h; exact ⟨dv, rfl, of_decide_eq_true h⟩

theorem finalize_toPair {r : Record} (h : wellFormedDate r.hearing_date = true) :
    finalize (toPair r) = r := by
  obtain ⟨dv, hp, hf⟩ := wellFormedDate_spec h
  simp only [finalize, toPair, hp, formatOptDate, hf]

theorem mem_merge_pairs {A B : List Record} {x : Record × Option DateT}
    (hx : x ∈ A.map toPair ++ B.map toPair) :
    ∃ r, (r ∈ A ∨ r ∈ B) ∧ x = toPair r := by
  rcases List.mem_append.mp hx with h | h
  · obtain ⟨r, hr, rfl⟩ := List.mem_map.mp h
    exact ⟨r, Or.inl hr, rfl⟩
  · obtain ⟨r, hr, rfl⟩ := List.mem_map.mp h
    exact ⟨r, Or.inr hr, rfl⟩

theorem canonicalSet_mem {A : List Record} (h : canonicalSet A = true) {r : Record}
    (hr : r ∈ A) : wellFormedDate r.hearing_date = true :=
  List.all_eq_true.mp h r hr

theorem merge_eq_of_ne_nil {A B : List Record} (hA : A ≠ []) (hB : B ≠ []) :
    combine_and_sort_dataframes A B = (mergeCore (A.map toPair ++ B.map toPair)).map finalize := by
  cases A with
  | nil => exact absurd rfl hA
  | cons a t =>
    cases B with
    | nil => exact absurd rfl hB
    | cons b u => rfl

theorem merge_pairwise_idTuple {A B : List Record} (hA : A ≠ []) (hB : B ≠ [])
    (hcA : canonicalSet A = true) (hcB : canonicalSet B = true) :
    (combine_and_sort_dataframes A B).Pairwise (fun r1 r2 => idTuple r1 ≠ idTuple r2) := by
  rw [merge_eq_of_ne_nil hA hB, List.pairwise_map]
  refine (pairwise_key_mergeCore _).imp_of_mem ?_
  intro a b ha hb hkey heq
  obtain ⟨ra, hra, rfl⟩ := mem_merge_pairs (mem_of_mem_mergeCore ha)
  obtain ⟨rb, hrb, rfl⟩ := mem_merge_pairs (mem_of_mem_mergeCore hb)
  have wfa : wellFormedDate ra.hearing_date = true :=
    hra.elim (canonicalSet_mem hcA) (canonicalSet_mem hcB)
  have wfb : wellFormedDate rb.hearing_date = true :=
    hrb.elim (canonicalSet_mem hcA) (canonicalSet_mem hcB)
  rw [finalize_toPair wfa, finalize_toPair wfb] at heq
  apply hkey
  simp only [idTuple, Prod.mk.injEq] at heq
  obtain ⟨e1, e2, e3, e4⟩ := heq
  simp [keyOf, toPair, e1, e2, e3, e4]

/-- Claim C1: on an old snapshot holding exactly one record (case "123",
venue "V1", date "01/01/2026", time "09:00", type "Inicial") and a new set
holding one record identical except for date "02/01/2026", the change
detector returns exactly one record, namely the old-snapshot row with its
old values. -/
theorem c1_change_detector_returns_old_row (cl re st : String) :
    find_changed_hearings
      [⟨"02/01/2026", "09:00", "123", cl, re, "V1", "Inicial", st⟩]
      [⟨"01/01/2026", "09:00", "123", cl, re, "V1", "Inicial", st⟩] =
      [⟨"01/01/2026", "09:00", "123", cl, re, "V1", "Inicial", st⟩] := rfl

/-- Claim C2, counterexample: with an empty first argument the merge returns
the second argument unchanged, so two distinct records sharing an identity
tuple (equal but for status) both survive, contradicting the claim that the
no-duplicate invariant holds even when one input is empty. -/
theorem c2_counterexample :
    combine_and_sort_dataframes [] [recX1, recX2] = [recX1, recX2] ∧
    recX1 ≠ recX2 ∧ idTuple recX1 = idTuple recX2 := by
  decide

/-- Claim C2, amended: whenever both inputs are nonempty (so the dedup path
runs) and both are canonical record sets, the merge output contains no two
distinct records sharing an identity tuple. -/
theorem c2_merge_no_duplicate_identity (A B : List Record) (hA : A ≠ []) (hB : B ≠ [])
    (hcA : canonicalSet A = true) (hcB : canonicalSet B = true) :
    (combine_and_sort_dataframes A B).Pairwise (fun r1 r2 => idTuple r1 ≠ idTuple r2) :=
  merge_pairwise_idTuple hA hB hcA hcB

/-- Witness for the amended C2 theorem at concrete nonempty canonical inputs. -/
theorem c2_witness :
    ([recX1] ≠ ([] : List Record) ∧ [recEarly] ≠ ([] : List Record) ∧
      canonicalSet [recX1] = true ∧ canonicalSet [recEarly] = true) ∧
    (combine_and_sort_dataframes [recX1] [recEarly]).Pairwise
      (fun r1 r2 => idTuple r1 ≠ idTuple r2) :=
  ⟨⟨by decide, by decide, by decide, by decide⟩,
    c2_merge_no_duplicate_identity [recX1] [recEarly]
      (by decide) (by decide) (by decide) (by decide)⟩

/-- Claim C3, counterexample: with an empty first argument the merge returns
the second argument unchanged and unsorted, so an input listed in descending
date order is emitted in descending date order, contradicting the claim that
the sort invariant holds even when one input is empty. -/
theorem c3_counterexample :
    combine_and_sort_dataframes [] [recLate, recEarly] = [recLate, recEarly] ∧
    ¬ (combine_and_sort_dataframes [] [recLate, recEarly]).Pairwise
        (fun r1 r2 => dateOrdKey r1 ≤ dateOrdKey r2) := by
  refine ⟨rfl, ?_⟩
  intro h
  exact absurd ((List.pairwise_cons.mp h).1 recEarly (List.mem_cons_self _ _)) (by decide)

/-- Claim C3, amended: whenever both inputs are nonempty (so the sort path
runs) and both are canonical record sets, the merge output is ordered
non-decreasing by hearing date, the date being parsed from the `DD/MM/YYYY`
display string. -/
theorem c3_merge_sorted_by_date (A B : List Record) (hA : A ≠ []) (hB : B ≠ [])
    (hcA : canonicalSet A = true) (hcB : canonicalSet B = true) :
    (combine_and_sort_dataframes A B).Pairwise (fun r1 r2 => dateOrdKey r1 ≤ dateOrdKey r2) := by
  rw [merge_eq_of_ne_nil hA hB, List.pairwise_map]
  refine (sorted_mergeCore _).imp_of_mem ?_
  intro a b ha hb hle
  obtain ⟨ra, hra, rfl⟩ := mem_merge_pairs (mem_of_mem_mergeCore ha)
  obtain ⟨rb, hrb, rfl⟩ := mem_merge_pairs (mem_of_mem_mergeCore hb)
  have wfa : wellFormedDate ra.hearing_date = true :=
    hra.elim (canonicalSet_mem hcA) (canonicalSet_mem hcB)
  have wfb : wellFormedDate rb.hearing_date = true :=
    hrb.elim (canonicalSet_mem hcA) (canonicalSet_mem hcB)
  rw [finalize_toPair wfa, finalize_toPair wfb]
  exact hle

/-- Witness for the amended C3 theorem at concrete nonempty canonical inputs. -/
theorem c3_witness :
    ([recLate] ≠ ([] : List Record) ∧ [recEarly] ≠ ([] : List Record) ∧
      canonicalSet [recLate] = true ∧ canonicalSet [recEarly] = true) ∧
    (combine_and_sort_dataframes [recLate] [recEarly]).Pairwise
      (fun r1 r2 => dateOrdKey r1 ≤ dateOrdKey r2) :=
  ⟨⟨by decide, by decide, by decide, by decide⟩,
    c3_merge_sorted_by_date [recLate] [recEarly]
      (by decide) (by decide) (by decide) (by decide)⟩

/-- Claim C4: merging a canonical record set with itself is identity-tuple
equal to the set itself: the output carries no duplicate identity tuple and
its identity tuples are exactly those of the input, none added and none
dropped. -/
theorem c4_merge_idempotent (A : List Record) (hc : canonicalSet A = true) :
    ((combine_and_sort_dataframes A A).map idTuple).Nodup ∧
    ∀ t, t ∈ (combine_and_sort_dataframes A A).map idTuple ↔ t ∈ A.map idTuple := by
  by_cases hA : A = []
  · subst hA
    exact ⟨List.nodup_nil, fun t => Iff.rfl⟩
  constructor
  · exact List.pairwise_map.mpr (merge_pairwise_idTuple hA hA hc hc)
  · intro t
    constructor
    · intro ht
      obtain ⟨x, hx, rfl⟩ := List.mem_map.mp ht
      rw [merge_eq_of_ne_nil hA hA] at hx
      obtain ⟨y, hy, rfl⟩ := List.mem_map.mp hx
      obtain ⟨r, hr, rfl⟩ := mem_merge_pairs (mem_of_mem_mergeCore hy)
      have hrA : r ∈ A := hr.elim id id
      rw [finalize_toPair (canonicalSet_mem hc hrA)]
      exact List.mem_map_of_mem idTuple hrA
    · intro ht
      obtain ⟨r, hrA, rfl⟩ := List.mem_map.mp ht
      have hx : toPair r ∈ A.map toPair ++ A.map toPair :=
        List.mem_append.mpr (Or.inl (List.mem_map_of_mem toPair hrA))
      obtain ⟨y, hy, hk⟩ := exists_key_mergeCore hx
      obtain ⟨ry, hry, rfl⟩ := mem_merge_pairs (mem_of_mem_mergeCore hy)
      have hryA : ry ∈ A := hry.elim id id
      have wfy := canonicalSet_mem hc hryA
      have wfr := canonicalSet_mem hc hrA
      refine List.mem_map.mpr ⟨finalize (toPair ry), ?_, ?_⟩
      · rw [merge_eq_of_ne_nil hA hA]
        exact List.mem_map_of_mem finalize hy
      · rw [finalize_toPair wfy]
        simp only [keyOf, toPair, Prod.mk.injEq] at hk
        obtain ⟨k1, k2, k3, k4⟩ := hk
        obtain ⟨dv1, hp1, hf1⟩ := wellFormedDate_spec wfy
        obtain ⟨dv2, hp2, hf2⟩ := wellFormedDate_spec wfr
        have hdv : dv1 = dv2 := by
          rw [hp1, hp2] at k3
          exact Option.some.inj k3
        have hdate : ry.hearing_date = r.hearing_date := by
          rw [← hf1, ← hf2, hdv]
        simp [idTuple, k1, k2, k4, hdate]

/-- Witness for the C4 theorem at a concrete canonical input. -/
theorem c4_witness :
    canonicalSet [recTwinA] = true ∧
    (((combine_and_sort_dataframes [recTwinA] [recTwinA]).map idTuple).Nodup ∧
      ∀ t, t ∈ (combine_and_sort_dataframes [recTwinA] [recTwinA]).map idTuple ↔
        t ∈ [recTwinA].map idTuple) :=
  ⟨by decide, c4_merge_idempotent [recTwinA] (by decide)⟩

/-- Claim C5: merging with an empty set on either side returns the other
input unchanged, row content and order preserved, with no date round trip
performed on it (the theorem holds for every input list, including lists
whose dates would not survive a parse/format round trip). -/
theorem c5_merge_neutral (A : List Record) :
    combine_and_sort_dataframes A [] = A ∧ combine_and_sort_dataframes [] A = A := by
  refine ⟨?_, rfl⟩
  cases A with
  | nil => rfl
  | cons a t => rfl

theorem refactored_output_nonnull {p : Payload} {n : NormRecord}
    (h : n ∈ json_to_dataframe_refactored p) :
    n.hearing_date.isSome = true ∧ n.case_number.isSome = true := by
  unfold json_to_dataframe_refactored at h
  cases hp : p.resultado with
  | none => rw [hp] at h; simp at h
  | some rows =>
    rw [hp] at h
    have hb := (List.mem_filter.mp h).2
    rw [Bool.and_eq_true] at hb
    exact hb

/-- Claim C6, counterexample: the legacy normalizer of `src/scrapper.py` has
no null-row filter, so a payload whose rows lack a case number is emitted
with null case numbers rather than dropped. -/
theorem c6_counterexample :
    json_to_dataframe pNoCase = [mapRow rowNoCase] ∧
    (mapRow rowNoCase).case_number = none ∧
    (mapRow rowNoCase).hearing_date = some "10/03/2026" ∧
    json_to_dataframe pNoCase ≠ [] := by
  decide

/-- Claim C6, amended: the refactored normalizer of
`src/scrapper_refactored.py` satisfies the claim: every row of its output has
non-null hearing date and non-null case number, rows failing this being
dropped; the legacy `src/scrapper.py` normalizer has no such filter and
emits rows with null identity fields. -/
theorem c6_refactored_drops_null_rows (p : Payload) (n : NormRecord)
    (h : n ∈ json_to_dataframe_refactored p) :
    n.hearing_date ≠ none ∧ n.case_number ≠ none := by
  obtain ⟨h1, h2⟩ := refactored_output_nonnull h
  exact ⟨Option.isSome_iff_ne_none.mp h1, Option.isSome_iff_ne_none.mp h2⟩

/-- Witness for the amended C6 theorem at a concrete payload and output row. -/
theorem c6_witness :
    (mapRow rowGood ∈ json_to_dataframe_refactored pGood) ∧
    ((mapRow rowGood).hearing_date ≠ none ∧ (mapRow rowGood).case_number ≠ none) :=
  ⟨by decide, c6_refactored_drops_null_rows pGood (mapRow rowGood) (by decide)⟩

/-- Claim C7, counterexample: in the legacy normalizer of `src/scrapper.py`
the date conversion has no coercion, so one malformed date makes the caught
exception empty the WHOLE payload's output: the malformed row does not get a
null date, and even the well-formed row (which maps to a complete record) is
lost; the refactored normalizer keeps the well-formed row. -/
theorem c7_counterexample :
    json_to_dataframe pMix = [] ∧
    (mapRow rowGood).hearing_date = some "10/03/2026" ∧
    (mapRow rowGood).case_number ≠ none ∧
    json_to_dataframe_refactored pMix = [mapRow rowGood] := by
  decide

/-- Claim C7, amended: in the refactored normalizer of
`src/scrapper_refactored.py`, a row whose `dataInicio` does not parse as an
ISO date maps to a null hearing date (no exception), and is then dropped by
the null filter rather than emitted; a well-formed ISO date is reformatted to
`DD/MM/YYYY`.  In the legacy `src/scrapper.py` normalizer a malformed date
instead empties the whole payload's output. -/
theorem c7_refactored_date_handling (r : RawRow) (s : String) (hs : r.dataInicio = some s) :
    (parseIsoDate s = none → (mapRow r).hearing_date = none) ∧
    (∀ dv, parseIsoDate s = some dv → (mapRow r).hearing_date = some (formatDate dv)) ∧
    (parseIsoDate s = none → ∀ p, mapRow r ∉ json_to_dataframe_refactored p) := by
  refine ⟨?_, ?_, ?_⟩
  · intro hn
    simp [mapRow, hs, hn]
  · intro dv hdv
    simp [mapRow, hs, hdv]
  · intro hn p hmem
    have h1 := (refactored_output_nonnull hmem).1
    rw [show (mapRow r).hearing_date = none from by simp [mapRow, hs, hn]] at h1
    simp at h1

/-- Witness for the amended C7 theorem at a concrete malformed-date row. -/
theorem c7_witness :
    rowBadDate.dataInicio = some "not-a-date" ∧
    ((parseIsoDate "not-a-date" = none → (mapRow rowBadDate).hearing_date = none) ∧
     (∀ dv, parseIsoDate "not-a-date" = some dv →
        (mapRow rowBadDate).hearing_date = some (formatDate dv)) ∧
     (parseIsoDate "not-a-date" = none →
        ∀ p, mapRow rowBadDate ∉ json_to_dataframe_refactored p)) :=
  ⟨rfl, c7_refactored_date_handling rowBadDate "not-a-date" rfl⟩

/-- Claim C8: when the fetched calendar titles contain the computed title of
one record and not that of another, populate issues exactly one create call,
for the record whose title is absent. -/
theorem c8_populate_creates_only_missing (r1 r2 : Record) (summaries : List String)
    (h1 : eventSummary r1 ∈ summaries) (h2 : eventSummary r2 ∉ summaries) :
    populate_calendar [r1, r2] summaries = [r2] := by
  simp [populate_calendar, List.filter, h1, h2]

/-- Witness for the C8 theorem at concrete records and titles. -/
theorem c8_witness :
    (eventSummary recLate ∈ [eventSummary recLate] ∧
      eventSummary recEarly ∉ [eventSummary recLate]) ∧
    populate_calendar [recLate, recEarly] [eventSummary recLate] = [recEarly] :=
  ⟨⟨by decide, by decide⟩,
    c8_populate_creates_only_missing recLate recEarly [eventSummary recLate]
      (by decide) (by decide)⟩

/-- Claim C9: a stale record whose computed title matches no existing
calendar event generates no delete call and exactly one anomaly
notification: the reconciliation output is the concatenation of per-record
outputs, and the output for such a record is exactly one missing-event
notification. -/
theorem c9_missing_stale_notifies (diff : List Record) (events : List CalEvent) (r : Record)
    (hmem : r ∈ diff)
    (hmiss : find_events_by_summary (eventSummary r) events = []) :
    handle_changed_events diff events = diff.flatMap (handleRow events) ∧
    handleRow events r = [SyncCall.notifyMissing (eventSummary r)] ∧
    (∀ i, SyncCall.deleteCall i ∉ handleRow events r) := by
  have hne : diff ≠ [] := by
    rintro rfl
    simp at hmem
  have hrow : handleRow events r = [SyncCall.notifyMissing (eventSummary r)] := by
    simp [handleRow, hmiss]
  refine ⟨?_, hrow, ?_⟩
  · unfold handle_changed_events
    rw [if_neg (by simpa [List.isEmpty_iff] using hne)]
  · intro i
    rw [hrow]
    simp

/-- Witness for the C9 theorem at a concrete stale record and calendar. -/
theorem c9_witness :
    (recEarly ∈ [recEarly] ∧
      find_events_by_summary (eventSummary recEarly) [evLate] = []) ∧
    (handle_changed_events [recEarly] [evLate] = [recEarly].flatMap (handleRow [evLate]) ∧
      handleRow [evLate] recEarly = [SyncCall.notifyMissing (eventSummary recEarly)] ∧
      (∀ i, SyncCall.deleteCall i ∉ handleRow [evLate] recEarly)) :=
  ⟨⟨by decide, by decide⟩,
    c9_missing_stale_notifies [recEarly] [evLate] recEarly (by decide) (by decide)⟩

/-- Claim C10, counterexample: two distinct records differing only in case
number share a computed title; over a calendar not containing that title a
single populate call issues a create call for BOTH (the fetched title list is
never updated inside the loop), so two create calls are issued for the same
title, not at most one. -/
theorem c10_counterexample :
    recTwinA ≠ recTwinB ∧ eventSummary recTwinA = eventSummary recTwinB ∧
    populate_calendar [recTwinA, recTwinB] [] = [recTwinA, recTwinB] := by
  decide

/-- Claim C10, amended: two records sharing a computed title are treated as
the same event only across populate calls: if the shared title is already on
the calendar neither record gets a create call, but over a calendar not
containing the title a single populate call creates one event per record
(two create calls for the same title), because the fetched title list is not
updated as events are created. -/
theorem c10_title_collision (r1 r2 : Record) (summaries : List String)
    (heq : eventSummary r1 = eventSummary r2) :
    (eventSummary r1 ∉ summaries → populate_calendar [r1, r2] summaries = [r1, r2]) ∧
    (eventSummary r1 ∈ summaries → populate_calendar [r1, r2] summaries = []) := by
  constructor
  · intro h
    have h2 : eventSummary r2 ∉ summaries := heq ▸ h
    simp [populate_calendar, List.filter, h, h2]
  · intro h
    have h2 : eventSummary r2 ∈ summaries := heq ▸ h
    simp [populate_calendar, List.filter, h, h2]

/-- Witness for the amended C10 theorem at the concrete colliding records. -/
theorem c10_witness :
    eventSummary recTwinA = eventSummary recTwinB ∧
    ((eventSummary recTwinA ∉ ([] : List String) →
       populate_calendar [recTwinA, recTwinB] [] = [recTwinA, recTwinB]) ∧
     (eventSummary recTwinA ∈ ([] : List String) →
       populate_calendar [recTwinA, recTwinB] [] = [])) :=
  ⟨by decide, c10_title_collision recTwinA recTwinB [] (by decide)⟩
